import Mathlib

/-!
Shallow embedding of `flair/embeddings/base.py`.

The file models the two components of that module:

* the `Embeddings` abstract base class — its constructor's attribute
  defaulting, the `embed` caching policy built on `_everything_embedded`,
  and the static helper `get_instance_parameters`;
* the `ScalarMix` module — construction of the scalar parameters and
  `gamma`, and the softmax-weighted mixture computed by `forward`.

Tensors are modelled as real-valued functions of a flat index
(`Tensor := ℕ → ℝ`); elementwise operations act pointwise and Python's
`sum([])` (the scalar `0`, broadcast by `gamma * _`) is the everywhere-zero
function.  Mutation of `self` does not occur in the source, so `forward`
also returns the (unchanged) module, and `embed` returns the data-point
list together with the number of invocations of the internal computation
hook during the call.
-/

namespace FlairBase

/-- A `torch.nn.Parameter` holding a single scalar, together with its
`requires_grad` flag (the trainability flag of the source). -/
structure Parameter where
  value : ℝ
  requires_grad : Bool

/-- `torch.nn.functional.softmax` on a 1-D tensor of reals:
entry `i` is `exp xᵢ / Σⱼ exp xⱼ` (the numerically shifted computation of
torch is equal to this in real arithmetic). -/
noncomputable def softmax (w : List ℝ) : List ℝ :=
  w.map (fun x => Real.exp x / (w.map Real.exp).sum)

/-- The `ScalarMix` module state: `mixture_size`, the `ParameterList` of
scalar parameters, and the scale parameter `gamma`. -/
structure ScalarMix where
  mixture_size : ℕ
  scalar_parameters : List Parameter
  gamma : Parameter

/-- `ScalarMix.__init__`: `mixture_size` scalar parameters initialised from
`initial_scalar_parameters = [0.0] * mixture_size`, and `gamma`
initialised to `1.0`; every parameter carries `requires_grad = trainable`. -/
def ScalarMix.init (mixture_size : ℕ) (trainable : Bool) : ScalarMix :=
  let initial_scalar_parameters : List ℝ := List.replicate mixture_size 0
  { mixture_size := mixture_size
    scalar_parameters :=
      (List.range mixture_size).map
        (fun i => { value := initial_scalar_parameters.getD i 0
                    requires_grad := trainable })
    gamma := { value := 1, requires_grad := trainable } }

/-- A torch tensor, modelled as a real value at every flat index. -/
abbrev Tensor : Type := ℕ → ℝ

/-- Result of one call to `ScalarMix.forward`: the module after the call
(the source never writes to `self`), the output tensor, and whether the
mixture-size mismatch message was logged. -/
structure ForwardResult where
  module : ScalarMix
  output : Tensor
  loggedMismatch : Bool

/-- `ScalarMix.forward`: logs iff `len(tensors) != self.mixture_size`;
computes `normed_weights = softmax(cat(scalar_parameters))`, forms
`pieces = [weight * tensor for weight, tensor in zip(normed_weights, tensors)]`
and returns `gamma * sum(pieces)`. -/
noncomputable def ScalarMix.forward (m : ScalarMix) (tensors : List Tensor) :
    ForwardResult :=
  let normed_weights :=
    softmax (m.scalar_parameters.map Parameter.value)
  let pieces :=
    (normed_weights.zip tensors).map (fun wt => fun i => wt.1 * wt.2 i)
  { module := m
    output := fun i => m.gamma.value * (pieces.map (fun t => t i)).sum
    loggedMismatch := tensors.length != m.mixture_size }

/-- An embedding vector stored in a data point. -/
abbrev Vec : Type := List ℝ

/-- The external `DataPoint` collaborator: an object identity and the
`_embeddings` map from embedding name to vector. -/
structure DataPoint where
  id : ℕ
  _embeddings : List (String × Vec)

/-- The `Embeddings` abstract base class: the `name` attribute, the
`static_embeddings` flag, and the subclass-provided abstract hook
`_add_embeddings_internal` (which in Python mutates the data points in
place; here it maps the list to its post-call state). -/
structure Embeddings where
  name : String
  static_embeddings : Bool
  _add_embeddings_internal : List DataPoint → List DataPoint

/-- `Embeddings.__init__`: sets `name` to `"unnamed_embedding"` and
`static_embeddings` to `False` unless the subclass constructor already set
them (the `hasattr` checks); an already-present attribute is modelled as
`some` of its value. -/
def Embeddings.init (name : Option String) (static_embeddings : Option Bool)
    (hook : List DataPoint → List DataPoint) : Embeddings :=
  { name :=
      match name with
      | some n => n
      | none => "unnamed_embedding"
    static_embeddings :=
      match static_embeddings with
      | some b => b
      | none => false
    _add_embeddings_internal := hook }

/-- `Embeddings._everything_embedded`: returns `False` at the first data
point whose `_embeddings` keys do not contain `self.name`, else `True`. -/
def Embeddings._everything_embedded (e : Embeddings) :
    List DataPoint → Bool
  | [] => true
  | data_point :: rest =>
      if e.name ∈ data_point._embeddings.map Prod.fst then
        e._everything_embedded rest
      else
        false

/-- `Embeddings.embed`: wraps a single data point into a one-element list,
calls `_add_embeddings_internal` iff
`not self._everything_embedded(data_points) or not self.static_embeddings`,
and returns the data-point list; the second component counts the hook
invocations made by this call. -/
def Embeddings.embed (e : Embeddings)
    (data_points : DataPoint ⊕ List DataPoint) : List DataPoint × ℕ :=
  let dps :=
    match data_points with
    | Sum.inl d => [d]
    | Sum.inr l => l
  if !e._everything_embedded dps || !e.static_embeddings then
    (e._add_embeddings_internal dps, 1)
  else
    (dps, 0)

/-- A Python runtime value as far as `get_instance_parameters` needs one:
either a class (carrying the parameter names of its `__init__` signature,
`self` included) or some other value. -/
inductive PyValue where
  | cls (init_parameter_names : List String)
  | nat (n : ℕ)
  | str (s : String)
deriving DecidableEq

/-- `Embeddings.get_instance_parameters`: reads `__class__` from the
locals mapping, takes the parameter names of that class's `__init__`
signature, removes `"self"` and adds `"__class__"`, and returns the locals
entries whose key is in that set, in locals order.  `none` models the
exceptions raised when `__class__` is absent or not a class, or when
`set.remove("self")` fails because the signature lacks `self`. -/
def Embeddings.get_instance_parameters (locals : List (String × PyValue)) :
    Option (List (String × PyValue)) :=
  match (locals.find? (fun p => p.1 == "__class__")).map Prod.snd with
  | some (PyValue.cls ps) =>
      if "self" ∈ ps then
        let instance_parameter_names :=
          ps.filter (fun s => s ≠ "self") ++ ["__class__"]
        some (locals.filter
          (fun p => decide (p.1 ∈ instance_parameter_names)))
      else
        none
  | _ => none

/-- The key order asserted by the spec for `get_instance_parameters`:
the constructor's declared parameter names in signature order with `self`
removed, followed by the `__class__` marker. -/
def spec_parameter_order (ps : List String) : List String :=
  ps.filter (fun s => s ≠ "self") ++ ["__class__"]

/-- A one-parameter `ScalarMix` with the freshly initialised values. -/
def mix1 : ScalarMix :=
  { mixture_size := 1
    scalar_parameters := [{ value := 0, requires_grad := false }]
    gamma := { value := 1, requires_grad := false } }

/-- The constant-1 tensor. -/
def tOne : Tensor := fun _ => 1

/-- The constant-2 tensor. -/
def tTwo : Tensor := fun _ => 2

/-- The constant-3 tensor. -/
def tThree : Tensor := fun _ => 3

/-- A data point already carrying a vector under the name `"w"`. -/
def dpW : DataPoint := { id := 0, _embeddings := [("w", [])] }

/-- A data point carrying no vectors at all. -/
def dpEmpty : DataPoint := { id := 1, _embeddings := [] }

/-- A static embedding named `"w"` whose hook leaves data points as they
are. -/
def embStatic : Embeddings :=
  { name := "w", static_embeddings := true
    _add_embeddings_internal := fun ds => ds }

/-- A non-static embedding named `"w"` whose hook leaves data points as
they are. -/
def embDyn : Embeddings :=
  { name := "w", static_embeddings := false
    _add_embeddings_internal := fun ds => ds }

/-- A locals mapping for `get_instance_parameters` whose entries are not
in constructor-signature order: the class (with `__init__` parameters
`self, a, b`) first, then `b`, then `a`. -/
def localsCX : List (String × PyValue) :=
  [("__class__", PyValue.cls ["self", "a", "b"]),
   ("b", PyValue.nat 2),
   ("a", PyValue.nat 1)]

/-! ## Helper lemmas -/

theorem length_softmax (w : List ℝ) : (softmax w).length = w.length := by
  simp [softmax]

theorem pieces_apply (ws : List ℝ) (ts : List Tensor) (i : ℕ) :
    ((ws.zip ts).map (fun wt => fun j => wt.1 * wt.2 j)).map (fun t => t i)
      = (ws.zip ts).map (fun wt => wt.1 * wt.2 i) := by
  simp [List.map_map, Function.comp_def]

theorem zip_mul_sum (ws : List ℝ) (ts : List Tensor) (i : ℕ) :
    ((ws.zip ts).map (fun wt => wt.1 * wt.2 i)).sum
      = ∑ k ∈ Finset.range (min ws.length ts.length),
          ws.getD k 0 * (ts.getD k (fun _ => 0)) i := by
  induction ws generalizing ts with
  | nil => simp
  | cons w ws ih =>
    cases ts with
    | nil => simp
    | cons t ts =>
      simp only [List.zip_cons_cons, List.map_cons, List.sum_cons,
        List.length_cons]
      rw [Nat.succ_min_succ, Finset.sum_range_succ']
      simp only [List.getD_cons_succ, List.getD_cons_zero]
      rw [ih]
      exact add_comm _ _

theorem getD_replicate_zero (n i : ℕ) :
    (List.replicate n (0:ℝ)).getD i 0 = 0 := by
  induction n generalizing i with
  | zero => simp
  | succ n ih => cases i <;> simp [List.replicate_succ, ih]

theorem scalar_values_init (n : ℕ) (b : Bool) :
    (ScalarMix.init n b).scalar_parameters.map Parameter.value
      = List.replicate n 0 := by
  simp only [ScalarMix.init, List.map_map]
  refine List.eq_replicate_iff.mpr ⟨by simp, ?_⟩
  intro x hx
  simp only [List.mem_map, List.mem_range] at hx
  obtain ⟨i, hi, rfl⟩ := hx
  exact getD_replicate_zero n i

theorem softmax_replicate_zero (n : ℕ) :
    softmax (List.replicate n (0:ℝ)) = List.replicate n (1 / (n:ℝ)) := by
  simp [softmax, List.map_replicate, Real.exp_zero, List.sum_replicate,
    smul_eq_mul, one_div]

theorem replicate_zip_mul_sum (c : ℝ) (ts : List Tensor) (i : ℕ) :
    (((List.replicate ts.length c).zip ts).map (fun wt => wt.1 * wt.2 i)).sum
      = c * (ts.map (fun t => t i)).sum := by
  induction ts with
  | nil => simp
  | cons t ts ih =>
    simp only [List.length_cons, List.replicate_succ, List.zip_cons_cons,
      List.map_cons, List.sum_cons, ih, mul_add]

theorem forward_init_mean (n : ℕ) (b : Bool) (tensors : List Tensor)
    (ht : tensors.length = n) (i : ℕ) :
    ((ScalarMix.init n b).forward tensors).output i
      = (tensors.map (fun t => t i)).sum / n := by
  simp only [ScalarMix.forward]
  rw [pieces_apply, scalar_values_init, softmax_replicate_zero, ← ht,
    replicate_zip_mul_sum]
  have hg : (ScalarMix.init tensors.length b).gamma.value = 1 := rfl
  rw [hg, one_mul, one_div_mul_eq_div]

theorem everything_embedded_iff (e : Embeddings) (dps : List DataPoint) :
    e._everything_embedded dps = true
      ↔ ∀ d ∈ dps, e.name ∈ d._embeddings.map Prod.fst := by
  induction dps with
  | nil => simp [Embeddings._everything_embedded]
  | cons d rest ih =>
    simp only [Embeddings._everything_embedded, List.forall_mem_cons]
    by_cases h : e.name ∈ d._embeddings.map Prod.fst
    · rw [if_pos h]
      exact ⟨fun hr => ⟨h, ih.mp hr⟩, fun hr => ih.mpr hr.2⟩
    · rw [if_neg h]
      exact ⟨fun hf => (Bool.false_ne_true hf).elim, fun hr => (h hr.1).elim⟩

theorem map_fst_filter_key (q : String → Bool) (l : List (String × PyValue)) :
    (l.filter (fun p => q p.1)).map Prod.fst = (l.map Prod.fst).filter q := by
  induction l with
  | nil => rfl
  | cons p l ih => by_cases h : q p.1 <;> simp [h, ih]

/-! ## Claim theorems -/

/-- C1: a call to `ScalarMix.forward` with exactly `mixture_size` tensors
(and the constructor-guaranteed count of scalar parameters) returns, at
every index, `gamma` times the sum over `k < mixture_size` of the `k`-th
softmax-normalised weight times the `k`-th input tensor. -/
theorem forward_full_length_weighted_sum (m : ScalarMix)
    (tensors : List Tensor)
    (hp : m.scalar_parameters.length = m.mixture_size)
    (ht : tensors.length = m.mixture_size) (i : ℕ) :
    (m.forward tensors).output i
      = m.gamma.value *
          ∑ k ∈ Finset.range m.mixture_size,
            (softmax (m.scalar_parameters.map Parameter.value)).getD k 0 *
              (tensors.getD k (fun _ => 0)) i := by
  have hsl : (softmax (m.scalar_parameters.map Parameter.value)).length
      = m.mixture_size := by
    rw [length_softmax, List.length_map, hp]
  simp only [ScalarMix.forward]
  rw [pieces_apply, zip_mul_sum, hsl, ht, Nat.min_self]

/-- Witness for C1: the one-tensor instance at `mix1`. -/
theorem forward_full_length_weighted_sum_witness :
    mix1.scalar_parameters.length = mix1.mixture_size ∧
    ([tOne] : List Tensor).length = mix1.mixture_size ∧
    (mix1.forward [tOne]).output 0
      = mix1.gamma.value *
          ∑ k ∈ Finset.range mix1.mixture_size,
            (softmax (mix1.scalar_parameters.map Parameter.value)).getD k 0 *
              (([tOne] : List Tensor).getD k (fun _ => 0)) 0 :=
  ⟨rfl, rfl, forward_full_length_weighted_sum mix1 [tOne] rfl rfl 0⟩

/-- C4: a call to `ScalarMix.forward` with a tensor count different from
`mixture_size` does not abort: the mismatch is logged and the output is
`gamma` times the weighted sum truncated to the shorter of the weight and
tensor sequences. -/
theorem forward_mismatch_logs_and_truncates (m : ScalarMix)
    (tensors : List Tensor)
    (hp : m.scalar_parameters.length = m.mixture_size)
    (hne : tensors.length ≠ m.mixture_size) :
    (m.forward tensors).loggedMismatch = true ∧
    ∀ i, (m.forward tensors).output i
      = m.gamma.value *
          ∑ k ∈ Finset.range (min m.mixture_size tensors.length),
            (softmax (m.scalar_parameters.map Parameter.value)).getD k 0 *
              (tensors.getD k (fun _ => 0)) i := by
  have hsl : (softmax (m.scalar_parameters.map Parameter.value)).length
      = m.mixture_size := by
    rw [length_softmax, List.length_map, hp]
  constructor
  · simp only [ScalarMix.forward]
    exact bne_iff_ne.mpr hne
  · intro i
    simp only [ScalarMix.forward]
    rw [pieces_apply, zip_mul_sum, hsl]

/-- Witness for C4: `mix1` (one weight) applied to two tensors. -/
theorem forward_mismatch_logs_and_truncates_witness :
    mix1.scalar_parameters.length = mix1.mixture_size ∧
    ([tOne, tTwo] : List Tensor).length ≠ mix1.mixture_size ∧
    ((mix1.forward [tOne, tTwo]).loggedMismatch = true ∧
      ∀ i, (mix1.forward [tOne, tTwo]).output i
        = mix1.gamma.value *
            ∑ k ∈ Finset.range
                (min mix1.mixture_size ([tOne, tTwo] : List Tensor).length),
              (softmax (mix1.scalar_parameters.map Parameter.value)).getD k 0 *
                (([tOne, tTwo] : List Tensor).getD k (fun _ => 0)) i) :=
  ⟨rfl, by decide,
    forward_mismatch_logs_and_truncates mix1 [tOne, tTwo] rfl (by decide)⟩

/-- C5: a freshly constructed `ScalarMix` (all weights zero, `gamma = 1`)
averages: on a full-length tensor list the output is the unweighted
arithmetic mean, and the concrete `ScalarMix(3, trainable := false)` on
the constant tensors `1`, `2`, `3` yields `2` everywhere. -/
theorem fresh_scalar_mix_mean (n : ℕ) (b : Bool) (tensors : List Tensor)
    (_hn : 0 < n) (ht : tensors.length = n) :
    (∀ i, ((ScalarMix.init n b).forward tensors).output i
        = (tensors.map (fun t => t i)).sum / n) ∧
    (∀ i, ((ScalarMix.init 3 false).forward [tOne, tTwo, tThree]).output i
        = 2) := by
  refine ⟨fun i => forward_init_mean n b tensors ht i, fun i => ?_⟩
  rw [forward_init_mean 3 false [tOne, tTwo, tThree] rfl i]
  norm_num [tOne, tTwo, tThree]

/-- Witness for C5: the three constant tensors themselves. -/
theorem fresh_scalar_mix_mean_witness :
    0 < 3 ∧
    ([tOne, tTwo, tThree] : List Tensor).length = 3 ∧
    ((∀ i, ((ScalarMix.init 3 false).forward [tOne, tTwo, tThree]).output i
        = (([tOne, tTwo, tThree] : List Tensor).map (fun t => t i)).sum / 3) ∧
      (∀ i,
        ((ScalarMix.init 3 false).forward [tOne, tTwo, tThree]).output i
          = 2)) :=
  ⟨by decide, rfl,
    fresh_scalar_mix_mean 3 false [tOne, tTwo, tThree] (by decide) rfl⟩

/-- C6: `ScalarMix.init` with `mixture_size = n ≥ 1` creates exactly `n`
scalar parameters, all zero, `gamma = 1`, all carrying the given
trainability flag, and `forward` leaves the module unchanged. -/
theorem scalar_mix_init_state (n : ℕ) (b : Bool) (_hn : 0 < n) :
    (ScalarMix.init n b).mixture_size = n ∧
    (ScalarMix.init n b).scalar_parameters.length = n ∧
    (∀ p ∈ (ScalarMix.init n b).scalar_parameters,
        p.value = 0 ∧ p.requires_grad = b) ∧
    (ScalarMix.init n b).gamma.value = 1 ∧
    (ScalarMix.init n b).gamma.requires_grad = b ∧
    (∀ tensors,
      ((ScalarMix.init n b).forward tensors).module = ScalarMix.init n b) := by
  refine ⟨rfl, ?_, ?_, rfl, rfl, fun _ => rfl⟩
  · simp [ScalarMix.init]
  · intro p hp
    simp only [ScalarMix.init, List.mem_map, List.mem_range] at hp
    obtain ⟨i, hi, rfl⟩ := hp
    exact ⟨getD_replicate_zero n i, rfl⟩

/-- Witness for C6: the instance at `n = 1`, `trainable = true`. -/
theorem scalar_mix_init_state_witness :
    0 < 1 ∧
    ((ScalarMix.init 1 true).mixture_size = 1 ∧
      (ScalarMix.init 1 true).scalar_parameters.length = 1 ∧
      (∀ p ∈ (ScalarMix.init 1 true).scalar_parameters,
          p.value = 0 ∧ p.requires_grad = true) ∧
      (ScalarMix.init 1 true).gamma.value = 1 ∧
      (ScalarMix.init 1 true).gamma.requires_grad = true ∧
      (∀ tensors,
        ((ScalarMix.init 1 true).forward tensors).module
          = ScalarMix.init 1 true)) :=
  ⟨by decide, scalar_mix_init_state 1 true (by decide)⟩

/-- C2: a static embedding whose data points all already carry a vector
under its name neither invokes the computation hook nor changes any
vector map, and a repeated call is likewise a no-op. -/
theorem static_embed_no_recompute (e : Embeddings) (dps : List DataPoint)
    (hs : e.static_embeddings = true)
    (he : ∀ d ∈ dps, e.name ∈ d._embeddings.map Prod.fst) :
    e.embed (Sum.inr dps) = (dps, 0) ∧
    e.embed (Sum.inr (e.embed (Sum.inr dps)).1) = (dps, 0) := by
  have hee : e._everything_embedded dps = true :=
    (everything_embedded_iff e dps).mpr he
  have h1 : e.embed (Sum.inr dps) = (dps, 0) := by
    simp [Embeddings.embed, hee, hs]
  refine ⟨h1, ?_⟩
  rw [h1]
  exact h1

/-- Witness for C2: the static embedding `"w"` on a data point already
embedded under `"w"`. -/
theorem static_embed_no_recompute_witness :
    embStatic.static_embeddings = true ∧
    (∀ d ∈ [dpW], embStatic.name ∈ d._embeddings.map Prod.fst) ∧
    (embStatic.embed (Sum.inr [dpW]) = ([dpW], 0) ∧
      embStatic.embed (Sum.inr (embStatic.embed (Sum.inr [dpW])).1)
        = ([dpW], 0)) :=
  ⟨rfl, by decide, static_embed_no_recompute embStatic [dpW] rfl (by decide)⟩

/-- C3: a non-static embedding invokes the computation hook on every
`embed` call, whatever the input and its prior state. -/
theorem non_static_embed_always_computes (e : Embeddings)
    (input : DataPoint ⊕ List DataPoint)
    (hs : e.static_embeddings = false) :
    1 ≤ (e.embed input).2 := by
  simp [Embeddings.embed, hs]

/-- Witness for C3: the non-static embedding on a single fresh data
point. -/
theorem non_static_embed_always_computes_witness :
    embDyn.static_embeddings = false ∧
    1 ≤ (embDyn.embed (Sum.inl dpEmpty)).2 :=
  ⟨rfl, non_static_embed_always_computes embDyn (Sum.inl dpEmpty) rfl⟩

/-- C7: `embed` returns a list holding exactly the data points passed in,
in order, wrapping a single data point into a one-element list — given
that the hook honours its contract of mutating the given data points in
place (it preserves their identities and order). -/
theorem embed_returns_same_data_points (e : Embeddings)
    (hhook : ∀ ds, (e._add_embeddings_internal ds).map DataPoint.id
        = ds.map DataPoint.id) :
    (∀ d, ((e.embed (Sum.inl d)).1).map DataPoint.id = [d.id]) ∧
    (∀ dps, ((e.embed (Sum.inr dps)).1).map DataPoint.id
        = dps.map DataPoint.id) := by
  constructor
  · intro d
    by_cases h : (!e._everything_embedded [d] || !e.static_embeddings) = true
    · simp [Embeddings.embed, h, hhook]
    · simp [Embeddings.embed, h]
  · intro dps
    by_cases h : (!e._everything_embedded dps || !e.static_embeddings) = true
    · simp [Embeddings.embed, h, hhook]
    · simp [Embeddings.embed, h]

/-- Witness for C7: the identity-hook embedding. -/
theorem embed_returns_same_data_points_witness :
    (∀ ds, (embDyn._add_embeddings_internal ds).map DataPoint.id
        = ds.map DataPoint.id) ∧
    ((∀ d, ((embDyn.embed (Sum.inl d)).1).map DataPoint.id = [d.id]) ∧
      (∀ dps, ((embDyn.embed (Sum.inr dps)).1).map DataPoint.id
          = dps.map DataPoint.id)) :=
  ⟨fun _ => rfl, embed_returns_same_data_points embDyn (fun _ => rfl)⟩

/-- C9: `Embeddings.__init__` defaults `name` to `"unnamed_embedding"`
and `static_embeddings` to `false` when the subclass has not set them,
and leaves already-set values unchanged. -/
theorem init_default_attributes :
    (∀ hook, (Embeddings.init none none hook).name = "unnamed_embedding"
      ∧ (Embeddings.init none none hook).static_embeddings = false) ∧
    (∀ (n : String) (s : Bool) hook,
      (Embeddings.init (some n) (some s) hook).name = n
      ∧ (Embeddings.init (some n) (some s) hook).static_embeddings = s) :=
  ⟨fun _ => ⟨rfl, rfl⟩, fun _ _ _ => ⟨rfl, rfl⟩⟩

/-- C10: `_everything_embedded` holds on the empty sequence, so a static
embedding applied to the empty list calls no hook and returns `[]`. -/
theorem embed_empty_list_no_compute (e : Embeddings)
    (hs : e.static_embeddings = true) :
    e._everything_embedded [] = true ∧ e.embed (Sum.inr []) = ([], 0) := by
  refine ⟨rfl, ?_⟩
  simp [Embeddings.embed, Embeddings._everything_embedded, hs]

/-- Witness for C10: the static embedding `"w"` on the empty list. -/
theorem embed_empty_list_no_compute_witness :
    embStatic.static_embeddings = true ∧
    (embStatic._everything_embedded [] = true ∧
      embStatic.embed (Sum.inr []) = ([], 0)) :=
  ⟨rfl, embed_empty_list_no_compute embStatic rfl⟩

/-- C8 counterexample: on `localsCX` (class declaring `__init__`
parameters `self, a, b`, locals listed as `__class__, b, a`) the returned
keys are `__class__, b, a` — the locals order, which differs from the
spec-asserted signature order `a, b, __class__`, and does not even contain
`a, b` as a subsequence in signature order. -/
theorem get_instance_parameters_order_counterexample :
    ((Embeddings.get_instance_parameters localsCX).getD []).map Prod.fst
        = ["__class__", "b", "a"] ∧
    ((Embeddings.get_instance_parameters localsCX).getD []).map Prod.fst
        ≠ spec_parameter_order ["self", "a", "b"] ∧
    ¬ List.Sublist ["a", "b"]
        (((Embeddings.get_instance_parameters localsCX).getD [])
          |>.map Prod.fst) := by
  decide

/-- C8 (amended): `get_instance_parameters` returns the locals mapping
restricted to the constructor's declared parameter names (without `self`)
plus the `__class__` marker entry, with content exactly that restriction
and order following the locals mapping (a sublist of it), not the
constructor signature. -/
theorem get_instance_parameters_restricts_locals
    (locals : List (String × PyValue)) (ps : List String)
    (hc : (locals.find? (fun p => p.1 == "__class__")).map Prod.snd
        = some (PyValue.cls ps))
    (hself : "self" ∈ ps) :
    ∃ out, Embeddings.get_instance_parameters locals = some out ∧
      out.map Prod.fst = (locals.map Prod.fst).filter
        (fun k =>
          decide (k ∈ ps.filter (fun s => s ≠ "self") ++ ["__class__"])) ∧
      (∀ p, p ∈ out
        ↔ p ∈ locals ∧ ((p.1 ∈ ps ∧ p.1 ≠ "self") ∨ p.1 = "__class__")) ∧
      out.Sublist locals := by
  refine ⟨locals.filter
      (fun p =>
        decide (p.1 ∈ ps.filter (fun s => s ≠ "self") ++ ["__class__"])),
    ?_, ?_, ?_, ?_⟩
  · simp only [Embeddings.get_instance_parameters, hc, if_pos hself]
  · exact map_fst_filter_key
      (fun k => decide (k ∈ ps.filter (fun s => s ≠ "self") ++ ["__class__"]))
      locals
  · intro p
    simp [List.mem_filter, List.mem_append]
  · exact List.filter_sublist _

/-- Witness for the amended C8: the concrete locals mapping `localsCX`. -/
theorem get_instance_parameters_restricts_locals_witness :
    ((localsCX.find? (fun p => p.1 == "__class__")).map Prod.snd
        = some (PyValue.cls ["self", "a", "b"])) ∧
    "self" ∈ ["self", "a", "b"] ∧
    (∃ out, Embeddings.get_instance_parameters localsCX = some out ∧
      out.map Prod.fst = (localsCX.map Prod.fst).filter
        (fun k => decide
          (k ∈ List.filter (fun s => s ≠ "self") ["self", "a", "b"]
            ++ ["__class__"])) ∧
      (∀ p, p ∈ out
        ↔ p ∈ localsCX ∧
            ((p.1 ∈ ["self", "a", "b"] ∧ p.1 ≠ "self")
              ∨ p.1 = "__class__")) ∧
      out.Sublist localsCX) :=
  ⟨rfl, by decide,
    get_instance_parameters_restricts_locals localsCX ["self", "a", "b"]
      rfl (by decide)⟩

end FlairBase
